import Mathlib

/-!
# RootPanel (chap-links-library, src/js/src/component/rootpanel.js)

A shallow embedding of the `RootPanel` widget: a root-level container panel
that lazily creates a backing surface element (`frame`), appends it to a
configured container, keeps its style strings in sync (`repaint`), reads
rendered geometry back into cached fields (`reflow`), polls for size changes
(`_watch`/`_unwatch`/`checkSize`), and relays raw UI events to registered
listeners (`on`/`_updateEventEmitters`).

The DOM, timers and the window resize signal are modelled explicitly:

* a `Frame` records the created element's class, whether it has been appended
  to a container (`parentAttached`, i.e. `frame.parentNode` is set), its four
  style strings, its rendered offset/client geometry, and the list of event
  names for which a handler has been attached via `util.addEventListener`
  (`handlers`; a name occurring twice would mean two attached handlers);
* the host environment (`State`) tracks the set of live interval timers
  (every timer of this panel runs `checkSize`), the number of `checkSize`
  closures registered on the window resize signal, a counter of
  `requestReflow` invocations (the external scheduling hook), and a log of
  listener invocations `(callback, raw event)`.

Listener callbacks are opaque and identified by numeric ids; invoking one is
modelled by appending `(id, raw event)` to the log.  The dispatch closure
created in `_updateEventEmitters` captures the per-event listener array by
reference, and `on` only ever mutates that array in place (`arr.push`) after
it exists — it never replaces it — so dispatching reads the *live* listener
list; `dispatchEvent` below reads the current list accordingly.
-/

namespace RootPanel

/-- Raw UI event payloads are opaque to the panel; modelled as numbers. -/
abbrev RawEvent := Nat

/-- Listener callbacks are opaque; identified by ids, invocations logged. -/
abbrev Callback := Nat

/-- The created surface element (`this.frame`), together with the pieces of
DOM state the panel reads or writes on it. -/
structure Frame where
  className : String
  parentAttached : Bool
  styleTop : String
  styleLeft : String
  styleWidth : String
  styleHeight : String
  offsetTop : Int
  offsetLeft : Int
  offsetWidth : Int
  offsetHeight : Int
  clientWidth : Int
  clientHeight : Int
  handlers : List String
deriving DecidableEq, Repr

/-- The panel's configuration record (`this.options`).  Size options are
modelled as the size strings they evaluate to; the container is an opaque
handle (present or absent).  `autoResize` defaults to `true` as in the
constructor (`this.options = { autoResize: true }`). -/
structure Options where
  container : Option Unit := none
  className : Option String := none
  top : Option String := none
  left : Option String := none
  width : Option String := none
  height : Option String := none
  autoResize : Bool := true
deriving DecidableEq, Repr

/-- An argument to `setOptions`: each field is present (`some`) or absent.
Presence of a field models the JavaScript `'key' in options` test. -/
structure OptionsArg where
  container : Option Unit := none
  className : Option String := none
  top : Option String := none
  left : Option String := none
  width : Option String := none
  height : Option String := none
  autoResize : Option Bool := none
deriving DecidableEq, Repr

/-- The instance state of a `RootPanel`: configuration, the lazily created
frame, the listener map (event name to ordered callback list), the emitter
map domain (event names with an attached dispatch function), the cached
last-known geometry (initially unset), and the polling timer handle. -/
structure PanelState where
  options : Options
  frame : Option Frame
  listeners : List (String × List Callback)
  emitters : List String
  top : Option Int
  left : Option Int
  width : Option Int
  height : Option Int
  watchTimer : Option Nat
deriving DecidableEq, Repr

/-- The panel together with its host environment: live interval timers (all
running this panel's `checkSize`), the number of `checkSize` closures
registered on the window resize signal, the count of `requestReflow` calls
issued to the external scheduler, and the listener invocation log. -/
structure State where
  panel : PanelState
  liveTimers : List Nat
  nextTimer : Nat
  resizeListeners : Nat
  reflowRequests : Nat
  log : List (Callback × RawEvent)
deriving DecidableEq, Repr

/-- Modelled from the spec: `util.option.asSize` — "a style-string formatting
helper"; yields the configured size string, or the default when the option is
unconfigured (size options are modelled as the strings they evaluate to). -/
def asSize (value : Option String) (defaultValue : String) : String :=
  value.getD defaultValue

/-- The fresh `div` created on first repaint: class `'graph panel'` plus the
configured class name, no parent, empty style strings, zero geometry, no
attached handlers. -/
def newFrame (className : Option String) : Frame :=
  { className := match className with
      | some c => "graph panel " ++ c
      | none => "graph panel"
    parentAttached := false
    styleTop := "", styleLeft := "", styleWidth := "", styleHeight := ""
    offsetTop := 0, offsetLeft := 0, offsetWidth := 0, offsetHeight := 0
    clientWidth := 0, clientHeight := 0
    handlers := [] }

/-- `RootPanel.prototype._unwatch`: clear the polling interval timer, if any.
(The window resize listener is not removed; the source marks this TODO.) -/
def unwatch (s : State) : State :=
  match s.panel.watchTimer with
  | some id =>
      { s with panel := { s.panel with watchTimer := none }
               liveTimers := s.liveTimers.erase id }
  | none => s

/-- `RootPanel.prototype._watch`: stop any previous watch, register another
`checkSize` closure on the window resize signal, and start a fresh interval
timer running `checkSize`. -/
def watch (s : State) : State :=
  let s1 := unwatch s
  { s1 with panel := { s1.panel with watchTimer := some s1.nextTimer }
            liveTimers := s1.liveTimers ++ [s1.nextTimer]
            nextTimer := s1.nextTimer + 1
            resizeListeners := s1.resizeListeners + 1 }

/-- The `checkSize` closure created in `_watch`: if `autoResize` has been
turned off, self-cancel via `_unwatch`; otherwise, when the frame exists and
its client size disagrees with the cached size, call `requestReflow` (the
external scheduling hook, modelled as a counter).  The loose JavaScript
comparison `frame.clientWidth != me.width` is true when the cached value is
still undefined. -/
def checkSize (s : State) : State :=
  if s.panel.options.autoResize = false then unwatch s
  else
    match s.panel.frame with
    | some f =>
        if some f.clientWidth ≠ s.panel.width ∨ some f.clientHeight ≠ s.panel.height then
          { s with reflowRequests := s.reflowRequests + 1 }
        else s
    | none => s

/-- Modelled from the spec: `Component.prototype.setOptions` — "Accepts a
configuration with recognized options"; each provided option is merged into
the configuration record, absent keys leave it unchanged. -/
def mergeOptions (o : Options) (a : OptionsArg) : Options :=
  { container := a.container.orElse (fun _ => o.container)
    className := a.className.orElse (fun _ => o.className)
    top := a.top.orElse (fun _ => o.top)
    left := a.left.orElse (fun _ => o.left)
    width := a.width.orElse (fun _ => o.width)
    height := a.height.orElse (fun _ => o.height)
    autoResize := a.autoResize.getD o.autoResize }

/-- `RootPanel.prototype.setOptions`: when the `autoResize` key is present,
start or stop the watch according to its boolean value, then merge all
provided options into the configuration. -/
def setOptions (a : OptionsArg) (s : State) : State :=
  let s1 := match a.autoResize with
    | some b => if b then watch s else unwatch s
    | none => s
  { s1 with panel := { s1.panel with options := mergeOptions s1.panel.options a } }

/-- The `RootPanel` constructor: a fresh panel with `autoResize` defaulting
to `true`, no listeners, no frame, unset cached geometry, no timer, followed
by `this.setOptions(options)`. -/
def init (a : OptionsArg) : State :=
  setOptions a
    { panel := { options := {}, frame := none, listeners := [], emitters := []
                 top := none, left := none, width := none, height := none
                 watchTimer := none }
      liveTimers := [], nextTimer := 0, resizeListeners := 0
      reflowRequests := 0, log := [] }

/-- One iteration of the `util.forEach` loop in `_updateEventEmitters`: for a
listener-map entry whose event has no dispatch function yet, if the frame
exists, record the event in the emitter map and attach a dispatch handler to
the frame. -/
def attachStep (p : PanelState) (entry : String × List Callback) : PanelState :=
  if entry.1 ∈ p.emitters then p
  else
    match p.frame with
    | some f =>
        { p with emitters := p.emitters ++ [entry.1]
                 frame := some { f with handlers := f.handlers ++ [entry.1] } }
    | none => p

/-- `RootPanel.prototype._updateEventEmitters`: for every event name in the
listener map, attach a dispatch function when none is attached yet and the
frame exists; already-attached events are left untouched. -/
def updateEventEmitters (p : PanelState) : PanelState :=
  p.listeners.foldl attachStep p

/-- The listener-map update of `on`: `arr.push(callback)` on the existing
per-event array when one exists (modelled by rebuilding the map with the
callback appended to that entry), or insertion of a fresh one-element
array. -/
def pushListener (L : List (String × List Callback)) (event : String)
    (callback : Callback) : List (String × List Callback) :=
  match L.lookup event with
  | some _ => L.map (fun x => if x.1 = event then (x.1, x.2 ++ [callback]) else x)
  | none => L ++ [(event, [callback])]

/-- `RootPanel.prototype.on` (`on` is reserved in Lean): append the callback
to the ordered listener list for the event (creating the list on first
registration), then re-synchronize dispatch attachments. -/
def onEvent (event : String) (callback : Callback) (s : State) : State :=
  { s with panel := updateEventEmitters { s.panel with
      listeners := pushListener s.panel.listeners event callback } }

/-- The error message thrown by `repaint` when no container is configured. -/
def noContainerMsg : String := "Cannot repaint root panel: no container attached"

/-- `if (frame.style.top != top) { frame.style.top = top; changed = true; }`:
write the style string only when it differs, reporting whether it did. -/
def setStyleTop (f : Frame) (v : String) : Frame × Bool :=
  if f.styleTop = v then (f, false) else ({ f with styleTop := v }, true)

/-- The analogous guarded write for `frame.style.left`. -/
def setStyleLeft (f : Frame) (v : String) : Frame × Bool :=
  if f.styleLeft = v then (f, false) else ({ f with styleLeft := v }, true)

/-- The analogous guarded write for `frame.style.width`. -/
def setStyleWidth (f : Frame) (v : String) : Frame × Bool :=
  if f.styleWidth = v then (f, false) else ({ f with styleWidth := v }, true)

/-- The analogous guarded write for `frame.style.height`. -/
def setStyleHeight (f : Frame) (v : String) : Frame × Bool :=
  if f.styleHeight = v then (f, false) else ({ f with styleHeight := v }, true)

/-- The four guarded style writes of `repaint`, in source order, with the
defaults `'0'`, `'0'`, `'100%'`, `'100%'`; reports whether any write
happened. -/
def applyStyles (o : Options) (f : Frame) : Frame × Bool :=
  let r1 := setStyleTop f (asSize o.top "0")
  let r2 := setStyleLeft r1.1 (asSize o.left "0")
  let r3 := setStyleWidth r2.1 (asSize o.width "100%")
  let r4 := setStyleHeight r3.1 (asSize o.height "100%")
  (r4.1, r1.2 || r2.2 || r3.2 || r4.2)

/-- The non-throwing tail of `repaint`, given the created-or-existing frame
`f0`: append the frame to the container when it has no parent yet, update
the four style strings only when they differ from the computed sizes, then
re-synchronize event dispatch attachments; return whether anything changed
(frame creation, attachment, or a style write — the emitter
re-synchronization does not feed the flag). -/
def repaintGo (s : State) (f0 : Frame) : State × Except String Bool :=
  let f1 := if f0.parentAttached then f0 else { f0 with parentAttached := true }
  let r := applyStyles s.panel.options f1
  let changed := s.panel.frame.isNone || !f0.parentAttached || r.2
  ({ s with panel := updateEventEmitters { s.panel with frame := some r.1 } },
   Except.ok changed)

/-- `RootPanel.prototype.repaint`: create the frame once (lazily, on first
call), and throw `noContainerMsg` when the frame has no parent yet and no
container is configured — the throw happens after the frame was created and
stored but before it is appended, and the returned state reflects the
mutations made before the throw; otherwise run `repaintGo`. -/
def repaint (s : State) : State × Except String Bool :=
  let f0 := s.panel.frame.getD (newFrame s.panel.options.className)
  if f0.parentAttached = false ∧ s.panel.options.container = none then
    ({ s with panel := { s.panel with frame := some f0 } },
     Except.error noContainerMsg)
  else repaintGo s f0

/-- `var top = frame.offsetTop; if (top != this.top) { this.top = top;
resized = true; }`: cache the rendered offset only when it differs (the loose
comparison is true while the cached value is still undefined). -/
def cacheTop (p : PanelState) (v : Int) : PanelState × Bool :=
  if p.top = some v then (p, false) else ({ p with top := some v }, true)

/-- The analogous guarded cache update for `this.left`. -/
def cacheLeft (p : PanelState) (v : Int) : PanelState × Bool :=
  if p.left = some v then (p, false) else ({ p with left := some v }, true)

/-- The analogous guarded cache update for `this.width`. -/
def cacheWidth (p : PanelState) (v : Int) : PanelState × Bool :=
  if p.width = some v then (p, false) else ({ p with width := some v }, true)

/-- The analogous guarded cache update for `this.height`. -/
def cacheHeight (p : PanelState) (v : Int) : PanelState × Bool :=
  if p.height = some v then (p, false) else ({ p with height := some v }, true)

/-- `RootPanel.prototype.reflow`: when the frame exists, copy its offset
top/left/width/height into the cached geometry fields, reporting whether any
cached value changed; with no frame, report a change unconditionally. -/
def reflow (s : State) : State × Bool :=
  match s.panel.frame with
  | some f =>
      let r1 := cacheTop s.panel f.offsetTop
      let r2 := cacheLeft r1.1 f.offsetLeft
      let r3 := cacheWidth r2.1 f.offsetWidth
      let r4 := cacheHeight r3.1 f.offsetHeight
      ({ s with panel := r4.1 }, r1.2 || r2.2 || r3.2 || r4.2)
  | none => (s, true)

/-- A tick of the interval timer with the given id: runs `checkSize` when
that timer is still live, and does nothing when it has been cleared. -/
def pollTick (id : Nat) (s : State) : State :=
  if id ∈ s.liveTimers then checkSize s else s

/-- The window resize signal: every registered `checkSize` closure runs once
(all of this panel's registrations are behaviourally the same closure). -/
def resizeSignal (s : State) : State :=
  checkSize^[s.resizeListeners] s

/-- A re-layout by the rendering engine: the frame's rendered offset and
client geometry change to arbitrary new values (external to the panel). -/
structure Geometry where
  offsetTop : Int
  offsetLeft : Int
  offsetWidth : Int
  offsetHeight : Int
  clientWidth : Int
  clientHeight : Int
deriving DecidableEq, Repr

/-- Apply a re-layout: update the frame's rendered geometry, if it exists. -/
def render (g : Geometry) (s : State) : State :=
  match s.panel.frame with
  | some f =>
      let f1 := { f with offsetTop := g.offsetTop, offsetLeft := g.offsetLeft
                         offsetWidth := g.offsetWidth, offsetHeight := g.offsetHeight
                         clientWidth := g.clientWidth, clientHeight := g.clientHeight }
      { s with panel := { s.panel with frame := some f1 } }
  | none => s

/-- The browser fires a raw UI event of the given name on the frame: each
handler attached for that name runs the dispatch closure once, which invokes
every callback currently in the live listener list, in order. -/
def dispatchEvent (event : String) (v : RawEvent) (s : State) : State :=
  match s.panel.frame with
  | some f =>
      let fires := (List.replicate (f.handlers.count event)
        (((s.panel.listeners.lookup event).getD []).map (fun c => (c, v)))).flatten
      { s with log := s.log ++ fires }
  | none => s

/-- Triggers the resize watch can receive once set up: a timer tick, the
window resize signal, or a re-layout of the frame by the rendering engine. -/
inductive WatchEvent where
  | pollTick (id : Nat)
  | resizeSignal
  | render (g : Geometry)
deriving DecidableEq, Repr

/-- Apply one watch trigger to the state. -/
def watchStep (ev : WatchEvent) (s : State) : State :=
  match ev with
  | WatchEvent.pollTick id => pollTick id s
  | WatchEvent.resizeSignal => resizeSignal s
  | WatchEvent.render g => render g s

/-- Apply a sequence of watch triggers, oldest first. -/
def runWatch (evs : List WatchEvent) (s : State) : State :=
  evs.foldl (fun s ev => watchStep ev s) s

/-- One externally observable operation on a panel: a public method call, a
watch trigger, or an event dispatched on the frame by the browser. -/
inductive Step : State → State → Prop where
  | setOptions (a : OptionsArg) (s : State) : Step s (setOptions a s)
  | repaint (s : State) : Step s (repaint s).1
  | reflow (s : State) : Step s (reflow s).1
  | onEvent (e : String) (c : Callback) (s : State) : Step s (onEvent e c s)
  | watchEvent (ev : WatchEvent) (s : State) : Step s (watchStep ev s)
  | dispatch (e : String) (v : RawEvent) (s : State) : Step s (dispatchEvent e v s)

/-- A state reachable from some constructor call by a sequence of steps. -/
inductive Reachable : State → Prop where
  | init (a : OptionsArg) : Reachable (init a)
  | step {s s' : State} : Reachable s → Step s s' → Reachable s'

/-- A constructor argument configuring only a container. -/
def contArg : OptionsArg := { container := some () }

/-- A constructor argument explicitly enabling auto-resize. -/
def onArg : OptionsArg := { autoResize := some true }

/-- A `setOptions` argument explicitly disabling auto-resize. -/
def offArg : OptionsArg := { autoResize := some false }

/-- The concrete frame produced by the first repaint of a panel constructed
with only a container. -/
def frameEx : Frame :=
  { className := "graph panel", parentAttached := true, styleTop := "0"
    styleLeft := "0", styleWidth := "100%", styleHeight := "100%"
    offsetTop := 0, offsetLeft := 0, offsetWidth := 0, offsetHeight := 0
    clientWidth := 0, clientHeight := 0, handlers := [] }

/-! ## Lemmas about the guarded style writes and cache updates -/

theorem setStyleTop_fst (f : Frame) (v : String) :
    (setStyleTop f v).1 = { f with styleTop := v } := by
  unfold setStyleTop; split
  · next h => cases f; simp_all
  · rfl

theorem setStyleLeft_fst (f : Frame) (v : String) :
    (setStyleLeft f v).1 = { f with styleLeft := v } := by
  unfold setStyleLeft; split
  · next h => cases f; simp_all
  · rfl

theorem setStyleWidth_fst (f : Frame) (v : String) :
    (setStyleWidth f v).1 = { f with styleWidth := v } := by
  unfold setStyleWidth; split
  · next h => cases f; simp_all
  · rfl

theorem setStyleHeight_fst (f : Frame) (v : String) :
    (setStyleHeight f v).1 = { f with styleHeight := v } := by
  unfold setStyleHeight; split
  · next h => cases f; simp_all
  · rfl

theorem setStyleTop_snd (f : Frame) (v : String) :
    (setStyleTop f v).2 = decide (f.styleTop ≠ v) := by
  unfold setStyleTop; split <;> simp_all

theorem setStyleLeft_snd (f : Frame) (v : String) :
    (setStyleLeft f v).2 = decide (f.styleLeft ≠ v) := by
  unfold setStyleLeft; split <;> simp_all

theorem setStyleWidth_snd (f : Frame) (v : String) :
    (setStyleWidth f v).2 = decide (f.styleWidth ≠ v) := by
  unfold setStyleWidth; split <;> simp_all

theorem setStyleHeight_snd (f : Frame) (v : String) :
    (setStyleHeight f v).2 = decide (f.styleHeight ≠ v) := by
  unfold setStyleHeight; split <;> simp_all

theorem applyStyles_fst (o : Options) (f : Frame) :
    (applyStyles o f).1 =
      { f with styleTop := asSize o.top "0", styleLeft := asSize o.left "0"
               styleWidth := asSize o.width "100%"
               styleHeight := asSize o.height "100%" } := by
  simp [applyStyles, setStyleTop_fst, setStyleLeft_fst, setStyleWidth_fst,
    setStyleHeight_fst]

theorem applyStyles_snd (o : Options) (f : Frame) :
    ((applyStyles o f).2 = true) ↔
      (f.styleTop ≠ asSize o.top "0" ∨ f.styleLeft ≠ asSize o.left "0" ∨
       f.styleWidth ≠ asSize o.width "100%" ∨
       f.styleHeight ≠ asSize o.height "100%") := by
  simp [applyStyles, setStyleTop_fst, setStyleLeft_fst, setStyleWidth_fst,
    setStyleTop_snd, setStyleLeft_snd, setStyleWidth_snd, setStyleHeight_snd,
    or_assoc]

theorem cacheTop_fst (p : PanelState) (v : Int) :
    (cacheTop p v).1 = { p with top := some v } := by
  unfold cacheTop; split
  · next h => cases p; simp_all
  · rfl

theorem cacheLeft_fst (p : PanelState) (v : Int) :
    (cacheLeft p v).1 = { p with left := some v } := by
  unfold cacheLeft; split
  · next h => cases p; simp_all
  · rfl

theorem cacheWidth_fst (p : PanelState) (v : Int) :
    (cacheWidth p v).1 = { p with width := some v } := by
  unfold cacheWidth; split
  · next h => cases p; simp_all
  · rfl

theorem cacheHeight_fst (p : PanelState) (v : Int) :
    (cacheHeight p v).1 = { p with height := some v } := by
  unfold cacheHeight; split
  · next h => cases p; simp_all
  · rfl

theorem cacheTop_snd (p : PanelState) (v : Int) :
    (cacheTop p v).2 = decide (p.top ≠ some v) := by
  unfold cacheTop; split <;> simp_all

theorem cacheLeft_snd (p : PanelState) (v : Int) :
    (cacheLeft p v).2 = decide (p.left ≠ some v) := by
  unfold cacheLeft; split <;> simp_all

theorem cacheWidth_snd (p : PanelState) (v : Int) :
    (cacheWidth p v).2 = decide (p.width ≠ some v) := by
  unfold cacheWidth; split <;> simp_all

theorem cacheHeight_snd (p : PanelState) (v : Int) :
    (cacheHeight p v).2 = decide (p.height ≠ some v) := by
  unfold cacheHeight; split <;> simp_all

/-! ## Lemmas about the emitter synchronization fold -/

theorem attachStep_of_mem (p : PanelState) (x : String × List Callback)
    (h : x.1 ∈ p.emitters) : attachStep p x = p := by
  unfold attachStep; simp [h]

theorem attachStep_of_frame_none (p : PanelState) (x : String × List Callback)
    (h : p.frame = none) : attachStep p x = p := by
  unfold attachStep; rw [h]; split <;> rfl

theorem attachStep_listeners (p : PanelState) (x : String × List Callback) :
    (attachStep p x).listeners = p.listeners := by
  unfold attachStep
  split
  · rfl
  · split <;> rfl

theorem attachStep_options (p : PanelState) (x : String × List Callback) :
    (attachStep p x).options = p.options := by
  unfold attachStep
  split
  · rfl
  · split <;> rfl

theorem attachStep_watchTimer (p : PanelState) (x : String × List Callback) :
    (attachStep p x).watchTimer = p.watchTimer := by
  unfold attachStep
  split
  · rfl
  · split <;> rfl

theorem attachStep_frame_isSome (p : PanelState) (x : String × List Callback) :
    (attachStep p x).frame.isSome = p.frame.isSome := by
  unfold attachStep
  split
  · rfl
  · split <;> simp_all

theorem attachStep_emitters_mono (p : PanelState) (x : String × List Callback)
    (e : String) (h : e ∈ p.emitters) : e ∈ (attachStep p x).emitters := by
  unfold attachStep
  split
  · exact h
  · split
    · exact List.mem_append_left _ h
    · exact h

theorem foldl_attach_listeners (l : List (String × List Callback))
    (p : PanelState) : (List.foldl attachStep p l).listeners = p.listeners := by
  induction l generalizing p with
  | nil => rfl
  | cons x t ih => rw [List.foldl_cons, ih, attachStep_listeners]

theorem foldl_attach_options (l : List (String × List Callback))
    (p : PanelState) : (List.foldl attachStep p l).options = p.options := by
  induction l generalizing p with
  | nil => rfl
  | cons x t ih => rw [List.foldl_cons, ih, attachStep_options]

theorem foldl_attach_watchTimer (l : List (String × List Callback))
    (p : PanelState) : (List.foldl attachStep p l).watchTimer = p.watchTimer := by
  induction l generalizing p with
  | nil => rfl
  | cons x t ih => rw [List.foldl_cons, ih, attachStep_watchTimer]

theorem foldl_attach_frame_isSome (l : List (String × List Callback))
    (p : PanelState) :
    (List.foldl attachStep p l).frame.isSome = p.frame.isSome := by
  induction l generalizing p with
  | nil => rfl
  | cons x t ih => rw [List.foldl_cons, ih, attachStep_frame_isSome]

theorem foldl_attach_emitters_mono (l : List (String × List Callback))
    (p : PanelState) (e : String) (h : e ∈ p.emitters) :
    e ∈ (List.foldl attachStep p l).emitters := by
  induction l generalizing p with
  | nil => exact h
  | cons x t ih => exact ih (attachStep p x) (attachStep_emitters_mono p x e h)

theorem foldl_attach_of_frame_none (l : List (String × List Callback))
    (p : PanelState) (h : p.frame = none) : List.foldl attachStep p l = p := by
  induction l with
  | nil => rfl
  | cons x t ih => rw [List.foldl_cons, attachStep_of_frame_none p x h]; exact ih

theorem foldl_attach_of_covered (l : List (String × List Callback))
    (p : PanelState) (h : ∀ x ∈ l, x.1 ∈ p.emitters) :
    List.foldl attachStep p l = p := by
  induction l with
  | nil => rfl
  | cons x t ih =>
      rw [List.foldl_cons, attachStep_of_mem p x (h x (List.mem_cons_self x t))]
      exact ih (fun y hy => h y (List.mem_cons_of_mem x hy))

theorem foldl_attach_covers (l : List (String × List Callback)) (p : PanelState)
    (hf : p.frame.isSome = true) :
    ∀ x ∈ l, x.1 ∈ (List.foldl attachStep p l).emitters := by
  induction l generalizing p with
  | nil => intro x hx; cases hx
  | cons y t ih =>
      intro x hx
      rw [List.foldl_cons]
      rcases List.mem_cons.mp hx with h | h
      · subst h
        refine foldl_attach_emitters_mono t (attachStep p x) x.1 ?_
        by_cases hm : x.1 ∈ p.emitters
        · exact attachStep_emitters_mono p x x.1 hm
        · obtain ⟨f, hfs⟩ := Option.isSome_iff_exists.mp hf
          unfold attachStep
          rw [hfs]
          simp [hm]
      · exact ih (attachStep p y)
          (by rw [attachStep_frame_isSome]; exact hf) x h

theorem foldl_attach_spec (l : List (String × List Callback)) (p : PanelState)
    (f : Frame) (hf : p.frame = some f) (hpar : p.emitters = f.handlers) :
    ∃ new : List String,
      (List.foldl attachStep p l).frame
        = some { f with handlers := f.handlers ++ new } ∧
      (List.foldl attachStep p l).emitters = p.emitters ++ new ∧
      (∀ e ∈ new, e ∉ p.emitters ∧ e ∈ l.map Prod.fst) ∧
      new.Nodup ∧
      (∀ x ∈ l, x.1 ∈ p.emitters ++ new) := by
  induction l generalizing p f with
  | nil =>
      refine ⟨[], ?_, ?_, ?_, ?_, ?_⟩ <;> simp [hf, hpar]
  | cons x t ih =>
      rw [List.foldl_cons]
      by_cases hx : x.1 ∈ p.emitters
      · rw [attachStep_of_mem p x hx]
        obtain ⟨new, h1, h2, h3, h4, h5⟩ := ih p f hf hpar
        refine ⟨new, h1, h2, ?_, h4, ?_⟩
        · intro e he
          exact ⟨(h3 e he).1, by
            rw [List.map_cons]
            exact List.mem_cons_of_mem _ (h3 e he).2⟩
        · intro y hy
          rcases List.mem_cons.mp hy with h | h
          · subst h; exact List.mem_append_left _ hx
          · exact h5 y h
      · have hstep : attachStep p x =
            { p with emitters := p.emitters ++ [x.1]
                     frame := some { f with handlers := f.handlers ++ [x.1] } } := by
          unfold attachStep
          rw [hf]
          simp [hx]
        rw [hstep]
        obtain ⟨new, h1, h2, h3, h4, h5⟩ :=
          ih { p with emitters := p.emitters ++ [x.1]
                      frame := some { f with handlers := f.handlers ++ [x.1] } }
            { f with handlers := f.handlers ++ [x.1] } rfl (by simp [hpar])
        refine ⟨x.1 :: new, ?_, ?_, ?_, ?_, ?_⟩
        · rw [h1]; simp
        · rw [h2]; simp
        · intro e he
          rcases List.mem_cons.mp he with h | h
          · subst h
            exact ⟨hx, by rw [List.map_cons]; exact List.mem_cons_self _ _⟩
          · refine ⟨fun hmem => (h3 e h).1 (List.mem_append_left _ hmem), ?_⟩
            rw [List.map_cons]
            exact List.mem_cons_of_mem _ (h3 e h).2
        · refine List.nodup_cons.mpr ⟨?_, h4⟩
          intro hmem
          exact (h3 x.1 hmem).1 (List.mem_append_right _ (List.mem_singleton.mpr rfl))
        · intro y hy
          rcases List.mem_cons.mp hy with h | h
          · subst h
            exact List.mem_append_right _ (List.mem_cons_self _ _)
          · have := h5 y h
            simp only [List.mem_append, List.mem_singleton, List.mem_cons] at this ⊢
            tauto

theorem updateEventEmitters_listeners (p : PanelState) :
    (updateEventEmitters p).listeners = p.listeners :=
  foldl_attach_listeners p.listeners p

theorem updateEventEmitters_options (p : PanelState) :
    (updateEventEmitters p).options = p.options :=
  foldl_attach_options p.listeners p

theorem updateEventEmitters_watchTimer (p : PanelState) :
    (updateEventEmitters p).watchTimer = p.watchTimer :=
  foldl_attach_watchTimer p.listeners p

theorem foldl_attach_count_of_mem (l : List (String × List Callback))
    (p : PanelState) (e : String) (he : e ∈ p.emitters) :
    e ∈ (List.foldl attachStep p l).emitters ∧
    ∀ f, p.frame = some f →
      ∃ f', (List.foldl attachStep p l).frame = some f' ∧
        f'.handlers.count e = f.handlers.count e ∧
        f'.parentAttached = f.parentAttached := by
  induction l generalizing p with
  | nil => exact ⟨he, fun f hf => ⟨f, hf, rfl, rfl⟩⟩
  | cons x t ih =>
      rw [List.foldl_cons]
      by_cases hx : x.1 ∈ p.emitters
      · rw [attachStep_of_mem p x hx]
        exact ih p he
      · have hxe : x.1 ≠ e := fun h => hx (h ▸ he)
        cases hfr : p.frame with
        | none =>
            rw [attachStep_of_frame_none p x hfr]
            refine ⟨(ih p he).1, fun f hf => ?_⟩
            simp at hf
        | some f0 =>
            have hstep : attachStep p x =
                { p with emitters := p.emitters ++ [x.1]
                         frame := some { f0 with
                           handlers := f0.handlers ++ [x.1] } } := by
              unfold attachStep
              rw [hfr]
              simp [hx]
            rw [hstep]
            obtain ⟨hmem, hcount⟩ := ih
              { p with emitters := p.emitters ++ [x.1]
                       frame := some { f0 with handlers := f0.handlers ++ [x.1] } }
              (List.mem_append_left _ he)
            refine ⟨hmem, fun f hf => ?_⟩
            injection hf with hf
            subst hf
            obtain ⟨f', hfr', hc, hp⟩ :=
              hcount { f0 with handlers := f0.handlers ++ [x.1] } rfl
            refine ⟨f', hfr', ?_, hp⟩
            rw [hc]
            simp [List.count_append, List.count_singleton]
            intro hcontra
            exact hxe hcontra

theorem foldl_attach_frame_shape (l : List (String × List Callback))
    (p : PanelState) (f : Frame) (hf : p.frame = some f) :
    ∃ hs, (List.foldl attachStep p l).frame = some { f with handlers := hs } := by
  induction l generalizing p f with
  | nil =>
      refine ⟨f.handlers, ?_⟩
      simpa using hf
  | cons x t ih =>
      rw [List.foldl_cons]
      by_cases hx : x.1 ∈ p.emitters
      · rw [attachStep_of_mem p x hx]
        exact ih p f hf
      · have hstep : attachStep p x =
            { p with emitters := p.emitters ++ [x.1]
                     frame := some { f with handlers := f.handlers ++ [x.1] } } := by
          unfold attachStep
          rw [hf]
          simp [hx]
        rw [hstep]
        obtain ⟨hs, hfr⟩ := ih
          { p with emitters := p.emitters ++ [x.1]
                   frame := some { f with handlers := f.handlers ++ [x.1] } }
          { f with handlers := f.handlers ++ [x.1] } rfl
        exact ⟨hs, hfr⟩

theorem updateEventEmitters_frame_shape (p : PanelState) (f : Frame)
    (hf : p.frame = some f) :
    ∃ hs, (updateEventEmitters p).frame = some { f with handlers := hs } :=
  foldl_attach_frame_shape p.listeners p f hf

theorem updateEventEmitters_of_covered (p : PanelState)
    (h : ∀ x ∈ p.listeners, x.1 ∈ p.emitters) : updateEventEmitters p = p :=
  foldl_attach_of_covered p.listeners p h

theorem updateEventEmitters_of_frame_none (p : PanelState)
    (h : p.frame = none) : updateEventEmitters p = p :=
  foldl_attach_of_frame_none p.listeners p h

theorem updateEventEmitters_covers (p : PanelState) (hf : p.frame.isSome = true) :
    ∀ x ∈ p.listeners, x.1 ∈ (updateEventEmitters p).emitters :=
  foldl_attach_covers p.listeners p hf

/-! ## Lemmas about `List.lookup` over the listener map -/

theorem lookup_cons' (e k : String) (v : List Callback)
    (t : List (String × List Callback)) :
    List.lookup e ((k, v) :: t) = if e = k then some v else List.lookup e t := by
  rw [List.lookup_cons]
  cases hbeq : e == k
  · rw [if_neg (ne_of_beq_false hbeq)]
  · rw [if_pos (eq_of_beq hbeq)]

theorem lookup_map_push (L : List (String × List Callback)) (e : String)
    (cb : Callback) :
    List.lookup e (L.map (fun x => if x.1 = e then (x.1, x.2 ++ [cb]) else x))
      = (List.lookup e L).map (fun l => l ++ [cb]) := by
  induction L with
  | nil => rfl
  | cons y t ih =>
      obtain ⟨k, v⟩ := y
      by_cases hk : k = e
      · subst hk
        simp [lookup_cons', ih]
      · simp only [List.map_cons]
        rw [if_neg (by simpa using hk)]
        rw [lookup_cons', lookup_cons', if_neg (fun h => hk h.symm),
          if_neg (fun h => hk h.symm)]
        exact ih

theorem lookup_append_of_none (L : List (String × List Callback)) (e : String)
    (v : List Callback) (h : List.lookup e L = none) :
    List.lookup e (L ++ [(e, v)]) = some v := by
  induction L with
  | nil => simp [lookup_cons']
  | cons y t ih =>
      obtain ⟨k, w⟩ := y
      rw [lookup_cons'] at h
      by_cases hk : e = k
      · rw [if_pos hk] at h; exact absurd h (by simp)
      · rw [List.cons_append, lookup_cons', if_neg hk]
        exact ih (by rwa [if_neg hk] at h)

theorem lookup_none_iff (L : List (String × List Callback)) (e : String) :
    List.lookup e L = none ↔ e ∉ L.map Prod.fst := by
  induction L with
  | nil => simp
  | cons y t ih =>
      obtain ⟨k, v⟩ := y
      rw [lookup_cons']
      by_cases hk : e = k
      · subst hk; simp
      · simp [hk, ih, fun h : k = e => hk h.symm]

theorem lookup_mem (L : List (String × List Callback)) (e : String)
    (l : List Callback) (h : List.lookup e L = some l) : (e, l) ∈ L := by
  induction L with
  | nil => cases h
  | cons y t ih =>
      obtain ⟨k, v⟩ := y
      rw [lookup_cons'] at h
      by_cases hk : e = k
      · rw [if_pos hk] at h
        injection h with h
        subst hk
        subst h
        exact List.mem_cons_self _ _
      · rw [if_neg hk] at h
        exact List.mem_cons_of_mem _ (ih h)

theorem keys_map_push (L : List (String × List Callback)) (e : String)
    (cb : Callback) :
    (L.map (fun x => if x.1 = e then (x.1, x.2 ++ [cb]) else x)).map Prod.fst
      = L.map Prod.fst := by
  induction L with
  | nil => rfl
  | cons y t ih =>
      simp only [List.map_cons, ih]
      congr 1
      by_cases hy : y.1 = e <;> simp [hy]

/-! ## Branch lemmas for `repaint` -/

theorem newFrame_parentAttached (c : Option String) :
    (newFrame c).parentAttached = false := rfl

theorem repaintGo_snd (s : State) (f0 : Frame) :
    (repaintGo s f0).2 = Except.ok (s.panel.frame.isNone || !f0.parentAttached
      || (applyStyles s.panel.options
           (if f0.parentAttached then f0
            else { f0 with parentAttached := true })).2) := rfl

theorem repaintGo_fst (s : State) (f0 : Frame) :
    (repaintGo s f0).1 = { s with panel := updateEventEmitters ({ s.panel with
      frame := some (applyStyles s.panel.options
        (if f0.parentAttached then f0
         else { f0 with parentAttached := true })).1 }) } := rfl

theorem repaint_eq_go (s : State)
    (h : ¬((s.panel.frame.getD
        (newFrame s.panel.options.className)).parentAttached = false ∧
      s.panel.options.container = none)) :
    repaint s = repaintGo s
      (s.panel.frame.getD (newFrame s.panel.options.className)) := by
  simp only [repaint]
  rw [if_neg h]

theorem repaint_eq_error (s : State)
    (h : (s.panel.frame.getD
        (newFrame s.panel.options.className)).parentAttached = false ∧
      s.panel.options.container = none) :
    repaint s = ({ s with panel := { s.panel with
        frame := some (s.panel.frame.getD
          (newFrame s.panel.options.className)) } },
      Except.error noContainerMsg) := by
  simp only [repaint]
  rw [if_pos h]

theorem applyStyles_parentAttached (o : Options) (f : Frame) :
    (applyStyles o f).1.parentAttached = f.parentAttached := by
  rw [applyStyles_fst]

theorem applyStyles_handlers (o : Options) (f : Frame) :
    (applyStyles o f).1.handlers = f.handlers := by
  rw [applyStyles_fst]

theorem applyStyles_styleTop (o : Options) (f : Frame) :
    (applyStyles o f).1.styleTop = asSize o.top "0" := by
  rw [applyStyles_fst]

theorem applyStyles_styleLeft (o : Options) (f : Frame) :
    (applyStyles o f).1.styleLeft = asSize o.left "0" := by
  rw [applyStyles_fst]

theorem applyStyles_styleWidth (o : Options) (f : Frame) :
    (applyStyles o f).1.styleWidth = asSize o.width "100%" := by
  rw [applyStyles_fst]

theorem applyStyles_styleHeight (o : Options) (f : Frame) :
    (applyStyles o f).1.styleHeight = asSize o.height "100%" := by
  rw [applyStyles_fst]

theorem ifAttached_parentAttached (f0 : Frame) :
    (if f0.parentAttached then f0
     else { f0 with parentAttached := true }).parentAttached = true := by
  cases h : f0.parentAttached <;> simp [h]

theorem ifAttached_handlers (f0 : Frame) :
    (if f0.parentAttached then f0
     else { f0 with parentAttached := true }).handlers = f0.handlers := by
  cases h : f0.parentAttached <;> simp [h]

theorem applyStyles_stable (o : Options) (f : Frame)
    (h1 : f.styleTop = asSize o.top "0") (h2 : f.styleLeft = asSize o.left "0")
    (h3 : f.styleWidth = asSize o.width "100%")
    (h4 : f.styleHeight = asSize o.height "100%") :
    (applyStyles o f).2 = false := by
  cases hb : (applyStyles o f).2
  · rfl
  · exfalso
    rcases (applyStyles_snd o f).mp hb with h | h | h | h
    exacts [h h1, h h2, h h3, h h4]

theorem applyStyles_fst_stable (o : Options) (f : Frame)
    (h1 : f.styleTop = asSize o.top "0") (h2 : f.styleLeft = asSize o.left "0")
    (h3 : f.styleWidth = asSize o.width "100%")
    (h4 : f.styleHeight = asSize o.height "100%") :
    (applyStyles o f).1 = f := by
  rw [applyStyles_fst, ← h1, ← h2, ← h3, ← h4]

theorem foldl_attach_frame_fields (l : List (String × List Callback))
    (p : PanelState) (f : Frame) (hf : p.frame = some f) :
    ∃ f', (List.foldl attachStep p l).frame = some f' ∧
      f'.className = f.className ∧ f'.parentAttached = f.parentAttached ∧
      f'.styleTop = f.styleTop ∧ f'.styleLeft = f.styleLeft ∧
      f'.styleWidth = f.styleWidth ∧ f'.styleHeight = f.styleHeight := by
  obtain ⟨hs, hfr⟩ := foldl_attach_frame_shape l p f hf
  exact ⟨_, hfr, rfl, rfl, rfl, rfl, rfl, rfl⟩

theorem repaintGo_post (s : State) (f0 : Frame) :
    ∃ F, (repaintGo s f0).1.panel.frame = some F ∧
      F.parentAttached = true ∧
      F.styleTop = asSize s.panel.options.top "0" ∧
      F.styleLeft = asSize s.panel.options.left "0" ∧
      F.styleWidth = asSize s.panel.options.width "100%" ∧
      F.styleHeight = asSize s.panel.options.height "100%" ∧
      (repaintGo s f0).1.panel.options = s.panel.options ∧
      (repaintGo s f0).1.panel.listeners = s.panel.listeners ∧
      (repaintGo s f0).1.panel.watchTimer = s.panel.watchTimer := by
  rw [repaintGo_fst]
  obtain ⟨F, hfr, hcn, hpa, h1, h2, h3, h4⟩ := foldl_attach_frame_fields
    (({ s.panel with frame := some (applyStyles s.panel.options
        (if f0.parentAttached then f0
         else { f0 with parentAttached := true })).1 } : PanelState).listeners)
    ({ s.panel with frame := some (applyStyles s.panel.options
        (if f0.parentAttached then f0
         else { f0 with parentAttached := true })).1 })
    ((applyStyles s.panel.options
        (if f0.parentAttached then f0
         else { f0 with parentAttached := true })).1) rfl
  refine ⟨F, hfr, ?_, ?_, ?_, ?_, ?_,
    updateEventEmitters_options _, updateEventEmitters_listeners _,
    updateEventEmitters_watchTimer _⟩
  · rw [hpa, applyStyles_parentAttached, ifAttached_parentAttached]
  · rw [h1, applyStyles_styleTop]
  · rw [h2, applyStyles_styleLeft]
  · rw [h3, applyStyles_styleWidth]
  · rw [h4, applyStyles_styleHeight]

/-! ## Branch lemmas for `reflow` -/

theorem reflow_none (s : State) (hf : s.panel.frame = none) :
    reflow s = (s, true) := by
  simp [reflow, hf]

theorem reflow_some (s : State) (f : Frame) (hf : s.panel.frame = some f) :
    reflow s = ({ s with panel := { s.panel with
        top := some f.offsetTop
        left := some f.offsetLeft
        width := some f.offsetWidth
        height := some f.offsetHeight } },
      !decide (s.panel.top = some f.offsetTop) ||
      !decide (s.panel.left = some f.offsetLeft) ||
      !decide (s.panel.width = some f.offsetWidth) ||
      !decide (s.panel.height = some f.offsetHeight)) := by
  simp [reflow, hf, cacheTop_fst, cacheLeft_fst, cacheWidth_fst,
    cacheHeight_fst, cacheTop_snd, cacheLeft_snd, cacheWidth_snd,
    cacheHeight_snd]

/-! ## Field lemmas for the watch machinery -/

theorem unwatch_frame (s : State) : (unwatch s).panel.frame = s.panel.frame := by
  cases hw : s.panel.watchTimer <;> simp [unwatch, hw]

theorem unwatch_emitters (s : State) :
    (unwatch s).panel.emitters = s.panel.emitters := by
  cases hw : s.panel.watchTimer <;> simp [unwatch, hw]

theorem unwatch_listeners (s : State) :
    (unwatch s).panel.listeners = s.panel.listeners := by
  cases hw : s.panel.watchTimer <;> simp [unwatch, hw]

theorem unwatch_options (s : State) :
    (unwatch s).panel.options = s.panel.options := by
  cases hw : s.panel.watchTimer <;> simp [unwatch, hw]

theorem unwatch_watchTimer (s : State) :
    (unwatch s).panel.watchTimer = none := by
  cases hw : s.panel.watchTimer <;> simp [unwatch, hw]

theorem unwatch_reflowRequests (s : State) :
    (unwatch s).reflowRequests = s.reflowRequests := by
  cases hw : s.panel.watchTimer <;> simp [unwatch, hw]

theorem unwatch_liveTimers (s : State)
    (h : s.liveTimers = s.panel.watchTimer.toList) :
    (unwatch s).liveTimers = [] := by
  cases hw : s.panel.watchTimer <;> simp [unwatch, hw, h, Option.toList]

theorem watch_frame (s : State) : (watch s).panel.frame = s.panel.frame := by
  simp [watch, unwatch_frame]

theorem watch_emitters (s : State) :
    (watch s).panel.emitters = s.panel.emitters := by
  simp [watch, unwatch_emitters]

theorem watch_listeners (s : State) :
    (watch s).panel.listeners = s.panel.listeners := by
  simp [watch, unwatch_listeners]

theorem watch_options (s : State) :
    (watch s).panel.options = s.panel.options := by
  simp [watch, unwatch_options]

theorem watch_watchTimer (s : State) :
    (watch s).panel.watchTimer = some (unwatch s).nextTimer := by
  simp [watch]

theorem watch_liveTimers (s : State)
    (h : s.liveTimers = s.panel.watchTimer.toList) :
    (watch s).liveTimers = [(unwatch s).nextTimer] := by
  simp [watch]
  rw [unwatch_liveTimers s h]

theorem PanelState_frame_eta (p : PanelState) (f : Frame)
    (hf : p.frame = some f) :
    ({ p with frame := some f } : PanelState) = p := by
  cases p
  simp_all

theorem mergeOptions_autoResize (o : Options) (a : OptionsArg) :
    (mergeOptions o a).autoResize = a.autoResize.getD o.autoResize := rfl

theorem checkSize_off (s : State) (ha : s.panel.options.autoResize = false) :
    checkSize s = unwatch s := by
  unfold checkSize
  rw [ha]
  simp

theorem checkSize_panel (s : State) (h : s.panel.options.autoResize = true) :
    checkSize s = s ∨
      checkSize s = { s with reflowRequests := s.reflowRequests + 1 } := by
  unfold checkSize
  rw [h]
  simp only [Bool.true_eq_false, if_false]
  cases hf : s.panel.frame with
  | none => exact Or.inl rfl
  | some f =>
      by_cases hcond : some f.clientWidth ≠ s.panel.width ∨
        some f.clientHeight ≠ s.panel.height
      · right; simp [hcond]
      · left; simp [hcond]

/-! ## The reachable-state invariant -/

/-- The invariant maintained by every reachable state: the emitter map is
exactly the set of attached frame handlers (so at most one dispatch function
is attached per event), emitters only exist for events with listeners, the
listener map has unique keys and nonempty listener lists, an attached frame
is emitter-synchronized, the timer handle implies auto-resize, and the live
interval timers are exactly the panel's timer handle. -/
structure Inv (s : State) : Prop where
  parity : ∀ f, s.panel.frame = some f → s.panel.emitters = f.handlers
  emitters_nil : s.panel.frame = none → s.panel.emitters = []
  emitters_nodup : s.panel.emitters.Nodup
  emitters_keys : ∀ e ∈ s.panel.emitters, e ∈ s.panel.listeners.map Prod.fst
  keys_nodup : (s.panel.listeners.map Prod.fst).Nodup
  listeners_ne : ∀ x ∈ s.panel.listeners, x.2 ≠ ([] : List Callback)
  synced_attached : ∀ f, s.panel.frame = some f → f.parentAttached = true →
    ∀ x ∈ s.panel.listeners, x.1 ∈ s.panel.emitters
  timer_auto : s.panel.watchTimer.isSome = true →
    s.panel.options.autoResize = true
  timers_live : s.liveTimers = s.panel.watchTimer.toList

theorem Inv_unwatch (s : State) (h : Inv s) : Inv (unwatch s) := by
  refine ⟨?_, ?_, ?_, ?_, ?_, ?_, ?_, ?_, ?_⟩
  · rw [unwatch_frame, unwatch_emitters]; exact h.parity
  · rw [unwatch_frame, unwatch_emitters]; exact h.emitters_nil
  · rw [unwatch_emitters]; exact h.emitters_nodup
  · rw [unwatch_emitters, unwatch_listeners]; exact h.emitters_keys
  · rw [unwatch_listeners]; exact h.keys_nodup
  · rw [unwatch_listeners]; exact h.listeners_ne
  · rw [unwatch_frame, unwatch_emitters, unwatch_listeners]
    exact h.synced_attached
  · rw [unwatch_watchTimer]; intro hx; simp at hx
  · rw [unwatch_liveTimers s h.timers_live, unwatch_watchTimer]; rfl

theorem Inv_state_only (s : State) (h : Inv s) (lt : List Nat) (nt rl rr : Nat)
    (lg : List (Callback × RawEvent)) (hl : lt = s.liveTimers) :
    Inv { panel := s.panel, liveTimers := lt, nextTimer := nt
          resizeListeners := rl, reflowRequests := rr, log := lg } := by
  refine ⟨h.parity, h.emitters_nil, h.emitters_nodup, h.emitters_keys,
    h.keys_nodup, h.listeners_ne, h.synced_attached, h.timer_auto, ?_⟩
  show lt = s.panel.watchTimer.toList
  rw [hl, h.timers_live]

theorem Inv_checkSize (s : State) (h : Inv s) : Inv (checkSize s) := by
  cases ha : s.panel.options.autoResize with
  | false => rw [checkSize_off s ha]; exact Inv_unwatch s h
  | true =>
      rcases checkSize_panel s ha with he | he <;> rw [he]
      · exact h
      · exact Inv_state_only s h _ _ _ _ _ rfl

theorem Inv_pollTick (id : Nat) (s : State) (h : Inv s) : Inv (pollTick id s) := by
  unfold pollTick
  split
  · exact Inv_checkSize s h
  · exact h

theorem Inv_resizeSignal (s : State) (h : Inv s) : Inv (resizeSignal s) := by
  unfold resizeSignal
  generalize s.resizeListeners = n
  induction n with
  | zero => exact h
  | succ k ih => rw [Function.iterate_succ_apply']; exact Inv_checkSize _ ih

theorem Inv_render (g : Geometry) (s : State) (h : Inv s) : Inv (render g s) := by
  cases hf : s.panel.frame with
  | none =>
      have he : render g s = s := by simp [render, hf]
      rw [he]; exact h
  | some f =>
      have he : render g s = { s with panel := { s.panel with
          frame := some ({ f with
            offsetTop := g.offsetTop
            offsetLeft := g.offsetLeft
            offsetWidth := g.offsetWidth
            offsetHeight := g.offsetHeight
            clientWidth := g.clientWidth
            clientHeight := g.clientHeight }) } } := by
        simp [render, hf]
      rw [he]
      refine ⟨?_, ?_, h.emitters_nodup, h.emitters_keys, h.keys_nodup,
        h.listeners_ne, ?_, h.timer_auto, h.timers_live⟩
      · intro f1 hf1
        injection hf1 with hf1
        subst hf1
        exact h.parity f hf
      · intro hx; simp at hx
      · intro f1 hf1
        injection hf1 with hf1
        subst hf1
        exact h.synced_attached f hf

theorem Inv_dispatchEvent (e : String) (v : RawEvent) (s : State) (h : Inv s) :
    Inv (dispatchEvent e v s) := by
  cases hf : s.panel.frame with
  | none =>
      have he : dispatchEvent e v s = s := by simp [dispatchEvent, hf]
      rw [he]; exact h
  | some f =>
      have he : dispatchEvent e v s = { s with log := s.log ++
          (List.replicate (f.handlers.count e)
            (((s.panel.listeners.lookup e).getD []).map
              (fun c => (c, v)))).flatten } := by
        simp [dispatchEvent, hf]
      rw [he]
      exact ⟨h.parity, h.emitters_nil, h.emitters_nodup, h.emitters_keys,
        h.keys_nodup, h.listeners_ne, h.synced_attached, h.timer_auto,
        h.timers_live⟩

theorem Inv_update_panel (s : State) (q : PanelState) (F1 : Frame)
    (hqf : q.frame = some F1)
    (hqe : q.emitters = F1.handlers)
    (hnodup : q.emitters.Nodup)
    (hkeys : ∀ e ∈ q.emitters, e ∈ q.listeners.map Prod.fst)
    (hknodup : (q.listeners.map Prod.fst).Nodup)
    (hlne : ∀ x ∈ q.listeners, x.2 ≠ ([] : List Callback))
    (hqt : q.watchTimer = s.panel.watchTimer)
    (hqo : q.options = s.panel.options)
    (hInv : Inv s) :
    Inv { s with panel := updateEventEmitters q } := by
  obtain ⟨new, h1, h2, h3, h4, h5⟩ := foldl_attach_spec q.listeners q F1 hqf hqe
  have h1' : (updateEventEmitters q).frame
      = some { F1 with handlers := F1.handlers ++ new } := h1
  have h2' : (updateEventEmitters q).emitters = q.emitters ++ new := h2
  have hls : (updateEventEmitters q).listeners = q.listeners :=
    updateEventEmitters_listeners q
  have hwt : (updateEventEmitters q).watchTimer = q.watchTimer :=
    updateEventEmitters_watchTimer q
  have hop : (updateEventEmitters q).options = q.options :=
    updateEventEmitters_options q
  refine ⟨?_, ?_, ?_, ?_, ?_, ?_, ?_, ?_, ?_⟩
  · intro f1 hf1
    have hf1' : (updateEventEmitters q).frame = some f1 := hf1
    rw [h1'] at hf1'
    injection hf1' with hf1'
    show (updateEventEmitters q).emitters = f1.handlers
    rw [h2', hqe, ← hf1']
  · intro hf1
    have hf1' : (updateEventEmitters q).frame = none := hf1
    rw [h1'] at hf1'
    simp at hf1'
  · show (updateEventEmitters q).emitters.Nodup
    rw [h2']
    exact List.nodup_append.mpr
      ⟨hnodup, h4, fun a ha hb => (h3 a hb).1 ha⟩
  · intro e he
    have he' : e ∈ (updateEventEmitters q).emitters := he
    rw [h2'] at he'
    show e ∈ (updateEventEmitters q).listeners.map Prod.fst
    rw [hls]
    rcases List.mem_append.mp he' with hx | hx
    · exact hkeys e hx
    · exact (h3 e hx).2
  · show ((updateEventEmitters q).listeners.map Prod.fst).Nodup
    rw [hls]; exact hknodup
  · show ∀ x ∈ (updateEventEmitters q).listeners, x.2 ≠ ([] : List Callback)
    rw [hls]; exact hlne
  · intro f1 hf1 hatt x hx
    have hx' : x ∈ (updateEventEmitters q).listeners := hx
    rw [hls] at hx'
    show x.1 ∈ (updateEventEmitters q).emitters
    rw [h2']
    exact h5 x hx'
  · intro hx
    have hx' : (updateEventEmitters q).watchTimer.isSome = true := hx
    rw [hwt, hqt] at hx'
    show (updateEventEmitters q).options.autoResize = true
    rw [hop, hqo]
    exact hInv.timer_auto hx'
  · show s.liveTimers = (updateEventEmitters q).watchTimer.toList
    rw [hwt, hqt]
    exact hInv.timers_live

theorem Inv_setOptions (a : OptionsArg) (s : State) (h : Inv s) :
    Inv (setOptions a s) := by
  cases ha : a.autoResize with
  | none =>
      have he : setOptions a s = { s with panel := { s.panel with
          options := mergeOptions s.panel.options a } } := by
        simp [setOptions, ha]
      rw [he]
      refine ⟨h.parity, h.emitters_nil, h.emitters_nodup, h.emitters_keys,
        h.keys_nodup, h.listeners_ne, h.synced_attached, ?_, h.timers_live⟩
      intro hx
      show (mergeOptions s.panel.options a).autoResize = true
      rw [mergeOptions_autoResize, ha]
      exact h.timer_auto hx
  | some b =>
      cases b with
      | false =>
          have he : setOptions a s = { unwatch s with
              panel := { (unwatch s).panel with
                options := mergeOptions (unwatch s).panel.options a } } := by
            simp [setOptions, ha]
          rw [he]
          have hu := Inv_unwatch s h
          refine ⟨hu.parity, hu.emitters_nil, hu.emitters_nodup,
            hu.emitters_keys, hu.keys_nodup, hu.listeners_ne,
            hu.synced_attached, ?_, hu.timers_live⟩
          intro hx
          have hx' : (unwatch s).panel.watchTimer.isSome = true := hx
          rw [unwatch_watchTimer] at hx'
          simp at hx'
      | true =>
          have he : setOptions a s = { watch s with
              panel := { (watch s).panel with
                options := mergeOptions (watch s).panel.options a } } := by
            simp [setOptions, ha]
          rw [he]
          refine ⟨?_, ?_, ?_, ?_, ?_, ?_, ?_, ?_, ?_⟩
          · show ∀ f, (watch s).panel.frame = some f →
              (watch s).panel.emitters = f.handlers
            rw [watch_frame, watch_emitters]; exact h.parity
          · show (watch s).panel.frame = none → (watch s).panel.emitters = []
            rw [watch_frame, watch_emitters]; exact h.emitters_nil
          · show (watch s).panel.emitters.Nodup
            rw [watch_emitters]; exact h.emitters_nodup
          · show ∀ e ∈ (watch s).panel.emitters,
              e ∈ (watch s).panel.listeners.map Prod.fst
            rw [watch_emitters, watch_listeners]; exact h.emitters_keys
          · show ((watch s).panel.listeners.map Prod.fst).Nodup
            rw [watch_listeners]; exact h.keys_nodup
          · show ∀ x ∈ (watch s).panel.listeners, x.2 ≠ ([] : List Callback)
            rw [watch_listeners]; exact h.listeners_ne
          · show ∀ f, (watch s).panel.frame = some f → f.parentAttached = true →
              ∀ x ∈ (watch s).panel.listeners, x.1 ∈ (watch s).panel.emitters
            rw [watch_frame, watch_emitters, watch_listeners]
            exact h.synced_attached
          · intro hx
            show (mergeOptions (watch s).panel.options a).autoResize = true
            rw [mergeOptions_autoResize, ha]
            rfl
          · show (watch s).liveTimers = (watch s).panel.watchTimer.toList
            rw [watch_liveTimers s h.timers_live, watch_watchTimer]
            rfl

theorem Inv_repaint (s : State) (h : Inv s) : Inv (repaint s).1 := by
  by_cases hcond : (s.panel.frame.getD
      (newFrame s.panel.options.className)).parentAttached = false ∧
      s.panel.options.container = none
  · rw [repaint_eq_error s hcond]
    cases hf : s.panel.frame with
    | some f =>
        show Inv ({ s with panel := { s.panel with
          frame := some f } } : State)
        rw [PanelState_frame_eta s.panel f hf]
        exact h
    | none =>
        show Inv { s with panel := { s.panel with
          frame := some (newFrame s.panel.options.className) } }
        refine ⟨?_, ?_, h.emitters_nodup, h.emitters_keys, h.keys_nodup,
          h.listeners_ne, ?_, h.timer_auto, h.timers_live⟩
        · intro f1 hf1
          have hf1' : some (newFrame s.panel.options.className) = some f1 := hf1
          injection hf1' with hf1'
          show s.panel.emitters = f1.handlers
          rw [← hf1', h.emitters_nil hf]
          rfl
        · intro hf1
          have hf1' : some (newFrame s.panel.options.className)
            = (none : Option Frame) := hf1
          simp at hf1'
        · intro f1 hf1 hatt
          have hf1' : some (newFrame s.panel.options.className) = some f1 := hf1
          injection hf1' with hf1'
          rw [← hf1', newFrame_parentAttached] at hatt
          simp at hatt
  · rw [repaint_eq_go s hcond, repaintGo_fst]
    have hpar : s.panel.emitters = ((applyStyles s.panel.options
        (if (s.panel.frame.getD
            (newFrame s.panel.options.className)).parentAttached
         then s.panel.frame.getD (newFrame s.panel.options.className)
         else { s.panel.frame.getD (newFrame s.panel.options.className) with
           parentAttached := true })).1).handlers := by
      rw [applyStyles_handlers, ifAttached_handlers]
      cases hf : s.panel.frame with
      | some f =>
          show s.panel.emitters = f.handlers
          exact h.parity f hf
      | none =>
          show s.panel.emitters = (newFrame s.panel.options.className).handlers
          rw [h.emitters_nil hf]
          rfl
    exact Inv_update_panel s _ _ rfl hpar h.emitters_nodup h.emitters_keys
      h.keys_nodup h.listeners_ne rfl rfl h

theorem Inv_reflow (s : State) (h : Inv s) : Inv (reflow s).1 := by
  cases hf : s.panel.frame with
  | none => rw [reflow_none s hf]; exact h
  | some f =>
      rw [reflow_some s f hf]
      exact ⟨h.parity, h.emitters_nil, h.emitters_nodup, h.emitters_keys,
        h.keys_nodup, h.listeners_ne, h.synced_attached, h.timer_auto,
        h.timers_live⟩

theorem onEvent_eq_some (s : State) (e : String) (cb : Callback)
    (l : List Callback) (hl : List.lookup e s.panel.listeners = some l) :
    onEvent e cb s = { s with panel := updateEventEmitters ({ s.panel with
      listeners := s.panel.listeners.map
        (fun x => if x.1 = e then (x.1, x.2 ++ [cb]) else x) }) } := by
  simp [onEvent, pushListener, hl]

theorem onEvent_eq_none (s : State) (e : String) (cb : Callback)
    (hl : List.lookup e s.panel.listeners = none) :
    onEvent e cb s = { s with panel := updateEventEmitters ({ s.panel with
      listeners := s.panel.listeners ++ [(e, [cb])] }) } := by
  simp [onEvent, pushListener, hl]

theorem Inv_onEvent (e : String) (cb : Callback) (s : State) (h : Inv s) :
    Inv (onEvent e cb s) := by
  cases hl : List.lookup e s.panel.listeners with
  | some l =>
      rw [onEvent_eq_some s e cb l hl]
      have hlne : ∀ x ∈ s.panel.listeners.map
          (fun x => if x.1 = e then (x.1, x.2 ++ [cb]) else x),
          x.2 ≠ ([] : List Callback) := by
        intro x hx
        obtain ⟨y, hy, hxy⟩ := List.mem_map.mp hx
        by_cases hye : y.1 = e
        · rw [if_pos hye] at hxy
          rw [← hxy]
          simp
        · rw [if_neg hye] at hxy
          rw [← hxy]
          exact h.listeners_ne y hy
      cases hf : s.panel.frame with
      | none =>
          have hq : updateEventEmitters ({ s.panel with
              listeners := s.panel.listeners.map (fun x =>
                if x.1 = e then (x.1, x.2 ++ [cb]) else x) })
              = ({ s.panel with
                  listeners := s.panel.listeners.map (fun x =>
                    if x.1 = e then (x.1, x.2 ++ [cb]) else x) }
                  : PanelState) :=
            updateEventEmitters_of_frame_none _ hf
          rw [hq]
          refine ⟨?_, ?_, h.emitters_nodup, ?_, ?_, hlne, ?_, h.timer_auto,
            h.timers_live⟩
          · intro f1 hf1
            have hf1' : s.panel.frame = some f1 := hf1
            rw [hf] at hf1'; cases hf1'
          · intro _
            exact h.emitters_nil hf
          · intro e1 he1
            show e1 ∈ (s.panel.listeners.map
              (fun x => if x.1 = e then (x.1, x.2 ++ [cb]) else x)).map Prod.fst
            rw [keys_map_push]
            exact h.emitters_keys e1 he1
          · show ((s.panel.listeners.map
              (fun x => if x.1 = e then (x.1, x.2 ++ [cb]) else x)).map
                Prod.fst).Nodup
            rw [keys_map_push]
            exact h.keys_nodup
          · intro f1 hf1
            have hf1' : s.panel.frame = some f1 := hf1
            rw [hf] at hf1'; cases hf1'
      | some f =>
          refine Inv_update_panel s _ f hf (h.parity f hf) h.emitters_nodup
            ?_ ?_ hlne rfl rfl h
          · intro e1 he1
            show e1 ∈ (s.panel.listeners.map
              (fun x => if x.1 = e then (x.1, x.2 ++ [cb]) else x)).map Prod.fst
            rw [keys_map_push]
            exact h.emitters_keys e1 he1
          · show ((s.panel.listeners.map
              (fun x => if x.1 = e then (x.1, x.2 ++ [cb]) else x)).map
                Prod.fst).Nodup
            rw [keys_map_push]
            exact h.keys_nodup
  | none =>
      rw [onEvent_eq_none s e cb hl]
      have hke : e ∉ s.panel.listeners.map Prod.fst :=
        (lookup_none_iff s.panel.listeners e).mp hl
      have hkeys' : (s.panel.listeners ++ [(e, [cb])]).map Prod.fst
          = s.panel.listeners.map Prod.fst ++ [e] := by
        simp
      have hlne : ∀ x ∈ s.panel.listeners ++ [(e, [cb])],
          x.2 ≠ ([] : List Callback) := by
        intro x hx
        rcases List.mem_append.mp hx with hx | hx
        · exact h.listeners_ne x hx
        · rw [List.mem_singleton.mp hx]
          simp
      have hknodup : ((s.panel.listeners ++ [(e, [cb])]).map Prod.fst).Nodup := by
        rw [hkeys']
        exact List.nodup_append.mpr ⟨h.keys_nodup, List.nodup_singleton e,
          fun a ha hb => hke ((List.mem_singleton.mp hb) ▸ ha)⟩
      have hkeysub : ∀ e1 ∈ s.panel.emitters,
          e1 ∈ (s.panel.listeners ++ [(e, [cb])]).map Prod.fst := by
        intro e1 he1
        rw [hkeys']
        exact List.mem_append_left _ (h.emitters_keys e1 he1)
      cases hf : s.panel.frame with
      | none =>
          have hq : updateEventEmitters ({ s.panel with
              listeners := s.panel.listeners ++ [(e, [cb])] })
              = ({ s.panel with
                  listeners := s.panel.listeners ++ [(e, [cb])] }
                    : PanelState) :=
            updateEventEmitters_of_frame_none _ hf
          rw [hq]
          refine ⟨?_, ?_, h.emitters_nodup, hkeysub, hknodup, hlne, ?_,
            h.timer_auto, h.timers_live⟩
          · intro f1 hf1
            have hf1' : s.panel.frame = some f1 := hf1
            rw [hf] at hf1'; cases hf1'
          · intro _
            exact h.emitters_nil hf
          · intro f1 hf1
            have hf1' : s.panel.frame = some f1 := hf1
            rw [hf] at hf1'; cases hf1'
      | some f =>
          exact Inv_update_panel s _ f hf (h.parity f hf) h.emitters_nodup
            hkeysub hknodup hlne rfl rfl h

theorem Inv_watchStep (ev : WatchEvent) (s : State) (h : Inv s) :
    Inv (watchStep ev s) := by
  cases ev with
  | pollTick id => exact Inv_pollTick id s h
  | resizeSignal => exact Inv_resizeSignal s h
  | render g => exact Inv_render g s h

theorem Inv_init (a : OptionsArg) : Inv (init a) := by
  unfold init
  apply Inv_setOptions
  refine ⟨?_, ?_, ?_, ?_, ?_, ?_, ?_, ?_, ?_⟩ <;> intros <;> simp_all

theorem Inv_step {s s' : State} (hst : Step s s') (h : Inv s) : Inv s' := by
  cases hst with
  | setOptions a => exact Inv_setOptions a s h
  | repaint => exact Inv_repaint s h
  | reflow => exact Inv_reflow s h
  | onEvent e c => exact Inv_onEvent e c s h
  | watchEvent ev => exact Inv_watchStep ev s h
  | dispatch e v => exact Inv_dispatchEvent e v s h

theorem reachable_Inv (s : State) (h : Reachable s) : Inv s := by
  induction h with
  | init a => exact Inv_init a
  | step hr hst ih => exact Inv_step hst ih

/-! ## Facts about `onEvent` and `dispatchEvent` -/

theorem pushListener_lookup (L : List (String × List Callback)) (e : String)
    (cb : Callback) :
    List.lookup e (pushListener L e cb)
      = some (((List.lookup e L).getD []) ++ [cb]) := by
  cases hl : List.lookup e L with
  | some l => simp [pushListener, hl, lookup_map_push]
  | none => simp [pushListener, hl, lookup_append_of_none L e [cb] hl]

theorem onEvent_listeners (s : State) (e : String) (cb : Callback) :
    (onEvent e cb s).panel.listeners = pushListener s.panel.listeners e cb :=
  updateEventEmitters_listeners _

theorem onEvent_options (s : State) (e : String) (cb : Callback) :
    (onEvent e cb s).panel.options = s.panel.options :=
  updateEventEmitters_options _

theorem onEvent_log (s : State) (e : String) (cb : Callback) :
    (onEvent e cb s).log = s.log := rfl

theorem onEvent_frame_of_none (s : State) (e : String) (cb : Callback)
    (hf : s.panel.frame = none) : (onEvent e cb s).panel.frame = none := by
  show (updateEventEmitters ({ s.panel with
    listeners := pushListener s.panel.listeners e cb })).frame = none
  rw [updateEventEmitters_of_frame_none ({ s.panel with
    listeners := pushListener s.panel.listeners e cb }) hf]
  exact hf

theorem onEvent_emitters_of_none (s : State) (e : String) (cb : Callback)
    (hf : s.panel.frame = none) :
    (onEvent e cb s).panel.emitters = s.panel.emitters := by
  show (updateEventEmitters ({ s.panel with
    listeners := pushListener s.panel.listeners e cb })).emitters = _
  rw [updateEventEmitters_of_frame_none ({ s.panel with
    listeners := pushListener s.panel.listeners e cb }) hf]

theorem onEvent_frame_count (s : State) (e : String) (cb : Callback)
    (f : Frame) (hf : s.panel.frame = some f) (he : e ∈ s.panel.emitters) :
    e ∈ (onEvent e cb s).panel.emitters ∧
    ∃ f', (onEvent e cb s).panel.frame = some f' ∧
      f'.handlers.count e = f.handlers.count e ∧
      f'.parentAttached = f.parentAttached := by
  obtain ⟨hmem, hcount⟩ := foldl_attach_count_of_mem
    (({ s.panel with listeners := pushListener s.panel.listeners e cb }
        : PanelState).listeners)
    ({ s.panel with listeners := pushListener s.panel.listeners e cb })
    e he
  exact ⟨hmem, hcount f hf⟩

theorem dispatchEvent_some (s : State) (e : String) (v : RawEvent) (f : Frame)
    (hf : s.panel.frame = some f) :
    dispatchEvent e v s = { s with log := s.log ++
      (List.replicate (f.handlers.count e)
        (((List.lookup e s.panel.listeners).getD []).map
          (fun c => (c, v)))).flatten } := by
  simp [dispatchEvent, hf]

/-! ## The watch issues nothing once auto-resize is off -/

theorem render_reflowRequests (g : Geometry) (s : State) :
    (render g s).reflowRequests = s.reflowRequests := by
  cases hf : s.panel.frame <;> simp [render, hf]

theorem render_options (g : Geometry) (s : State) :
    (render g s).panel.options = s.panel.options := by
  cases hf : s.panel.frame <;> simp [render, hf]

theorem checkSize_iter_off (n : Nat) (s : State)
    (ha : s.panel.options.autoResize = false) :
    (checkSize^[n] s).reflowRequests = s.reflowRequests ∧
    (checkSize^[n] s).panel.options.autoResize = false := by
  induction n with
  | zero => exact ⟨rfl, ha⟩
  | succ k ih =>
      rw [Function.iterate_succ_apply']
      obtain ⟨h1, h2⟩ := ih
      rw [checkSize_off _ h2]
      refine ⟨?_, ?_⟩
      · rw [unwatch_reflowRequests]; exact h1
      · rw [unwatch_options]; exact h2

theorem watchStep_off (ev : WatchEvent) (s : State)
    (ha : s.panel.options.autoResize = false) :
    (watchStep ev s).reflowRequests = s.reflowRequests ∧
    (watchStep ev s).panel.options.autoResize = false := by
  cases ev with
  | pollTick id =>
      show (pollTick id s).reflowRequests = _ ∧
        (pollTick id s).panel.options.autoResize = false
      unfold pollTick
      split
      · rw [checkSize_off s ha]
        refine ⟨unwatch_reflowRequests s, ?_⟩
        rw [unwatch_options]; exact ha
      · exact ⟨rfl, ha⟩
  | resizeSignal => exact checkSize_iter_off s.resizeListeners s ha
  | render g =>
      refine ⟨render_reflowRequests g s, ?_⟩
      show (render g s).panel.options.autoResize = false
      rw [render_options]; exact ha

theorem runWatch_off (evs : List WatchEvent) (s : State)
    (ha : s.panel.options.autoResize = false) :
    (runWatch evs s).reflowRequests = s.reflowRequests ∧
    (runWatch evs s).panel.options.autoResize = false := by
  induction evs generalizing s with
  | nil => exact ⟨rfl, ha⟩
  | cons ev t ih =>
      show (runWatch t (watchStep ev s)).reflowRequests = _ ∧ _
      obtain ⟨h1, h2⟩ := watchStep_off ev s ha
      obtain ⟨h3, h4⟩ := ih (watchStep ev s) h2
      exact ⟨h3.trans h1, h4⟩

theorem setOptions_off_autoResize (s : State) (a : OptionsArg)
    (ha : a.autoResize = some false) :
    (setOptions a s).panel.watchTimer = none ∧
    (setOptions a s).panel.options.autoResize = false ∧
    (setOptions a s).reflowRequests = s.reflowRequests := by
  have he : setOptions a s = { unwatch s with
      panel := { (unwatch s).panel with
        options := mergeOptions (unwatch s).panel.options a } } := by
    simp [setOptions, ha]
  rw [he]
  refine ⟨?_, ?_, ?_⟩
  · show (unwatch s).panel.watchTimer = none
    exact unwatch_watchTimer s
  · show (mergeOptions (unwatch s).panel.options a).autoResize = false
    rw [mergeOptions_autoResize, ha]
    rfl
  · show (unwatch s).reflowRequests = s.reflowRequests
    exact unwatch_reflowRequests s

theorem setOptions_off_liveTimers (s : State) (a : OptionsArg)
    (ha : a.autoResize = some false)
    (ht : s.liveTimers = s.panel.watchTimer.toList) :
    (setOptions a s).liveTimers = [] := by
  have he : setOptions a s = { unwatch s with
      panel := { (unwatch s).panel with
        options := mergeOptions (unwatch s).panel.options a } } := by
    simp [setOptions, ha]
  rw [he]
  show (unwatch s).liveTimers = []
  exact unwatch_liveTimers s ht

/-! ## The claims -/

/-- C1: for every panel whose configuration has no container set, calling
`repaint` while the surface element is not yet appended raises exactly the
documented error and does not append the element; `repaint` raises an error
only under that condition, and the only error it raises is the documented
one. -/
theorem repaint_no_container_error (s : State) :
    ((repaint s).2 = Except.error noContainerMsg ↔
      (s.panel.options.container = none ∧
        ∀ g, s.panel.frame = some g → g.parentAttached = false)) ∧
    (∀ msg, (repaint s).2 = Except.error msg → msg = noContainerMsg) ∧
    (s.panel.options.container = none →
      (∀ g, s.panel.frame = some g → g.parentAttached = false) →
      ∃ f', (repaint s).1.panel.frame = some f' ∧
        f'.parentAttached = false) := by
  rcases hf : s.panel.frame with _ | f
  · by_cases hc : s.panel.options.container = none
    · simp [repaint, repaintGo, hf, hc, newFrame_parentAttached]
    · simp [repaint, repaintGo, hf, hc, newFrame_parentAttached]
  · by_cases hc : s.panel.options.container = none
    · by_cases hp : f.parentAttached = false
      · simp [repaint, repaintGo, hf, hc, hp]
      · simp [repaint, repaintGo, hf, hc, hp]
    · simp [repaint, repaintGo, hf, hc]

theorem repaint_no_container_error_witness :
    (repaint (init ({} : OptionsArg))).2 = Except.error noContainerMsg :=
  (repaint_no_container_error (init {})).1.mpr
    ⟨rfl, fun g hg => Option.noConfusion hg⟩

/-- C2, counterexample: the claimed invariant "the timer handle exists iff
auto-resize is enabled" fails on the code for the default configuration: the
constructor defaults `autoResize` to `true` but only calls `_watch` when the
key is explicitly passed, so right after `new RootPanel({})` auto-resize is
enabled while no polling timer exists. -/
theorem default_config_watch_not_running :
    (init ({} : OptionsArg)).panel.options.autoResize = true ∧
    (init ({} : OptionsArg)).panel.watchTimer = none := ⟨rfl, rfl⟩

/-- C2, amended: in every reachable state the polling timer handle exists
only if auto-resize is enabled, and after any `setOptions` call whose
options explicitly contain the `autoResize` key the timer handle exists if
and only if auto-resize is enabled; with the default configuration the
watch is not running even though auto-resize is enabled. -/
theorem watchTimer_iff_autoResize (s : State) (h : Reachable s) :
    (s.panel.watchTimer.isSome = true → s.panel.options.autoResize = true) ∧
    ∀ a b, a.autoResize = some b →
      ((setOptions a s).panel.watchTimer.isSome = true ↔
        (setOptions a s).panel.options.autoResize = true) := by
  refine ⟨(reachable_Inv s h).timer_auto, ?_⟩
  intro a b ha
  cases b with
  | true =>
      have he : setOptions a s = { watch s with
          panel := { (watch s).panel with
            options := mergeOptions (watch s).panel.options a } } := by
        simp [setOptions, ha]
      rw [he]
      constructor
      · intro _
        show (mergeOptions (watch s).panel.options a).autoResize = true
        rw [mergeOptions_autoResize, ha]
        rfl
      · intro _
        show ((watch s).panel.watchTimer).isSome = true
        rw [watch_watchTimer]
        rfl
  | false =>
      have he : setOptions a s = { unwatch s with
          panel := { (unwatch s).panel with
            options := mergeOptions (unwatch s).panel.options a } } := by
        simp [setOptions, ha]
      rw [he]
      constructor
      · intro hx
        have hx' : (unwatch s).panel.watchTimer.isSome = true := hx
        rw [unwatch_watchTimer] at hx'
        simp at hx'
      · intro hopt
        have hopt' : (mergeOptions (unwatch s).panel.options a).autoResize
            = true := hopt
        rw [mergeOptions_autoResize, ha] at hopt'
        simp at hopt'

theorem watchTimer_iff_autoResize_witness :
    ((setOptions onArg (init ({} : OptionsArg))).panel.watchTimer.isSome
        = true ↔
      (setOptions onArg
        (init ({} : OptionsArg))).panel.options.autoResize = true) :=
  (watchTimer_iff_autoResize (init {}) (Reachable.init {})).2 onArg true rfl

/-- C3: after toggling auto-resize from true to false via `setOptions`, the
polling interval timer is stopped (the handle is cleared and no interval
timer stays live), and no sequence of watch triggers — later poll ticks,
window resize signals (whose still-attached handler self-cancels), or
re-layouts — ever issues an automatic reflow request afterwards. -/
theorem autoResize_off_stops_watch (s : State) (h : Reachable s)
    (ht : s.panel.options.autoResize = true) :
    (setOptions offArg s).panel.watchTimer = none ∧
    (setOptions offArg s).liveTimers = [] ∧
    ∀ evs, (runWatch evs (setOptions offArg s)).reflowRequests
      = (setOptions offArg s).reflowRequests := by
  obtain ⟨h1, h2, h3⟩ := setOptions_off_autoResize s offArg rfl
  refine ⟨h1, setOptions_off_liveTimers s offArg rfl
    (reachable_Inv s h).timers_live, ?_⟩
  intro evs
  exact (runWatch_off evs _ h2).1

theorem autoResize_off_stops_watch_witness :
    (runWatch [WatchEvent.pollTick 0, WatchEvent.resizeSignal]
        (setOptions offArg (init onArg))).reflowRequests
      = (setOptions offArg (init onArg)).reflowRequests :=
  (autoResize_off_stops_watch (init onArg) (Reachable.init onArg) rfl).2.2 _

/-- C4: repaint is idempotent with respect to its result — with a container
configured, calling `repaint` twice with the configuration unchanged in
between returns `changed = false` on the second call. -/
theorem repaint_idempotent (s : State)
    (hc : s.panel.options.container.isSome = true) :
    (repaint (repaint s).1).2 = Except.ok false := by
  have hc' : ¬ s.panel.options.container = none := by
    intro h; rw [h] at hc; cases hc
  have hne : ¬((s.panel.frame.getD
      (newFrame s.panel.options.className)).parentAttached = false ∧
        s.panel.options.container = none) := fun h => hc' h.2
  rw [repaint_eq_go s hne]
  obtain ⟨F, hfr, hpar, ht, hl, hw, hh, hopt, _, _⟩ :=
    repaintGo_post s (s.panel.frame.getD (newFrame s.panel.options.className))
  have hne2 : ¬(((repaintGo s (s.panel.frame.getD
      (newFrame s.panel.options.className))).1.panel.frame.getD
        (newFrame (repaintGo s (s.panel.frame.getD
          (newFrame s.panel.options.className))).1.panel.options.className)).parentAttached
        = false ∧ (repaintGo s (s.panel.frame.getD
          (newFrame s.panel.options.className))).1.panel.options.container
            = none) := by
    rw [hfr]
    intro h
    rw [Option.getD_some, hpar] at h
    cases h.1
  rw [repaint_eq_go _ hne2, repaintGo_snd, hfr, Option.getD_some]
  rw [hopt]
  simp [hpar, applyStyles_stable _ _ ht hl hw hh, hfr]

theorem repaint_idempotent_witness :
    (repaint (repaint (init contArg)).1).2 = Except.ok false :=
  repaint_idempotent (init contArg) rfl

/-- C5: every successful `repaint` leaves the frame's style strings at the
computed sizes (defaults `"0"`, `"0"`, `"100%"`, `"100%"` when
unconfigured; styles are written only when they differ, which is what the
returned flag tracks), and on every reachable state it returns `true` if and
only if some mutation occurred during the call — to the frame (creation,
attachment, a style write, or a handler attached by the event-emitter
re-synchronization) or to the emitter map. -/
theorem repaint_styles_and_changed (s : State) (h : Reachable s) (r : Bool)
    (hok : (repaint s).2 = Except.ok r) :
    (∃ F, (repaint s).1.panel.frame = some F ∧
      F.styleTop = asSize s.panel.options.top "0" ∧
      F.styleLeft = asSize s.panel.options.left "0" ∧
      F.styleWidth = asSize s.panel.options.width "100%" ∧
      F.styleHeight = asSize s.panel.options.height "100%") ∧
    (r = true ↔ ((repaint s).1.panel.frame ≠ s.panel.frame ∨
      (repaint s).1.panel.emitters ≠ s.panel.emitters)) := by
  by_cases hcond : (s.panel.frame.getD
      (newFrame s.panel.options.className)).parentAttached = false ∧
      s.panel.options.container = none
  · rw [repaint_eq_error s hcond] at hok
    simp at hok
  · rw [repaint_eq_go s hcond] at hok ⊢
    obtain ⟨F, hfr, hpaF, ht, hl, hw, hh, hopt, hls, hwt⟩ :=
      repaintGo_post s (s.panel.frame.getD (newFrame s.panel.options.className))
    refine ⟨⟨F, hfr, ht, hl, hw, hh⟩, ?_⟩
    rw [repaintGo_snd] at hok
    injection hok with hok
    subst hok
    cases hfcase : s.panel.frame with
    | none =>
        rw [hfcase] at hfr
        constructor
        · intro _
          left
          rw [hfr]
          simp
        · intro _
          simp
    | some f =>
        rw [hfcase] at hfr
        simp only [Option.getD_some] at hfr ⊢
        by_cases hatt : f.parentAttached = true
        · rw [if_pos hatt]
          simp only [Option.isNone_some, hatt, Bool.not_true, Bool.false_or]
          by_cases hstyle : (applyStyles s.panel.options f).2 = true
          · rw [hstyle]
            constructor
            · intro _
              left
              rw [hfr]
              intro heq
              injection heq with heq
              rcases (applyStyles_snd s.panel.options f).mp hstyle
                with hx | hx | hx | hx
              · exact hx (by rw [← heq, ht])
              · exact hx (by rw [← heq, hl])
              · exact hx (by rw [← heq, hw])
              · exact hx (by rw [← heq, hh])
            · intro _; rfl
          · have hstyle' : (applyStyles s.panel.options f).2 = false := by
              cases hb : (applyStyles s.panel.options f).2
              · rfl
              · exact absurd hb hstyle
            have hall : ¬(f.styleTop ≠ asSize s.panel.options.top "0" ∨
                f.styleLeft ≠ asSize s.panel.options.left "0" ∨
                f.styleWidth ≠ asSize s.panel.options.width "100%" ∨
                f.styleHeight ≠ asSize s.panel.options.height "100%") := by
              intro hcontra
              rw [(applyStyles_snd s.panel.options f).mpr hcontra] at hstyle'
              simp at hstyle'
            push_neg at hall
            obtain ⟨e1, e2, e3, e4⟩ := hall
            have hq : (repaintGo s f).1.panel = s.panel := by
              rw [repaintGo_fst]
              show updateEventEmitters ({ s.panel with
                frame := some ((applyStyles s.panel.options
                  (if f.parentAttached then f
                   else { f with parentAttached := true })).1) }) = s.panel
              rw [if_pos hatt,
                applyStyles_fst_stable s.panel.options f e1 e2 e3 e4,
                PanelState_frame_eta s.panel f hfcase]
              exact updateEventEmitters_of_covered s.panel
                ((reachable_Inv s h).synced_attached f hfcase hatt)
            rw [hstyle', hq, hfcase]
            simp
        · have hatt' : f.parentAttached = false := by
            cases hb : f.parentAttached
            · rfl
            · exact absurd hb hatt
          rw [if_neg (by rw [hatt']; simp)]
          simp only [Option.isNone_some, hatt', Bool.not_false, Bool.false_or,
            Bool.true_or]
          constructor
          · intro _
            left
            rw [hfr]
            intro heq
            injection heq with heq
            rw [← heq, hpaF] at hatt'
            cases hatt'
          · intro _
            trivial

theorem repaint_styles_and_changed_witness :
    (true = true ↔ ((repaint (init contArg)).1.panel.frame
        ≠ (init contArg).panel.frame ∨
      (repaint (init contArg)).1.panel.emitters
        ≠ (init contArg).panel.emitters)) :=
  (repaint_styles_and_changed (init contArg) (Reachable.init contArg)
    true rfl).2

/-- C6: with no surface element, `reflow` returns `resized = true` without
changing cached geometry; with a surface, it copies the surface's offset
top/left/width/height into the cached geometry fields and returns `true` iff
at least one cached value changed — so a repeated `reflow` with identical
underlying dimensions returns `false`. -/
theorem reflow_spec (s : State) :
    (s.panel.frame = none → (reflow s).2 = true ∧ (reflow s).1 = s) ∧
    (∀ f, s.panel.frame = some f →
      ((reflow s).1.panel.top = some f.offsetTop ∧
       (reflow s).1.panel.left = some f.offsetLeft ∧
       (reflow s).1.panel.width = some f.offsetWidth ∧
       (reflow s).1.panel.height = some f.offsetHeight) ∧
      ((reflow s).2 = true ↔
        (s.panel.top ≠ some f.offsetTop ∨ s.panel.left ≠ some f.offsetLeft ∨
         s.panel.width ≠ some f.offsetWidth ∨
         s.panel.height ≠ some f.offsetHeight)) ∧
      (reflow (reflow s).1).2 = false) := by
  constructor
  · intro hf
    rw [reflow_none s hf]
    exact ⟨rfl, rfl⟩
  · intro f hf
    have he := reflow_some s f hf
    have hf2 : (reflow s).1.panel.frame = some f := by rw [he]; exact hf
    refine ⟨?_, ?_, ?_⟩
    · rw [he]
      exact ⟨rfl, rfl, rfl, rfl⟩
    · rw [he]
      simp [or_assoc]
    · rw [reflow_some ((reflow s).1) f hf2, he]
      simp

theorem reflow_spec_witness :
    (reflow (reflow (repaint (init contArg)).1).1).2 = false :=
  ((reflow_spec (repaint (init contArg)).1).2 frameEx rfl).2.2

/-- C7: in every reachable state, at most one dispatch function is attached
to the surface per event name (the attached-handler list has no duplicates
and coincides with the emitter map), and a handler is attached only for an
event name with at least one registered listener; while no surface exists,
no dispatch function exists at all. -/
theorem emitter_attach_invariant (s : State) (h : Reachable s) :
    (∀ f, s.panel.frame = some f →
      f.handlers.Nodup ∧ s.panel.emitters = f.handlers ∧
      ∀ e ∈ f.handlers, ∃ l, (e, l) ∈ s.panel.listeners ∧ l ≠ []) ∧
    (s.panel.frame = none → s.panel.emitters = []) := by
  have hInv := reachable_Inv s h
  refine ⟨?_, hInv.emitters_nil⟩
  intro f hf
  have hpar := hInv.parity f hf
  refine ⟨?_, hpar, ?_⟩
  · rw [← hpar]; exact hInv.emitters_nodup
  · intro e he
    have he' : e ∈ s.panel.emitters := by rw [hpar]; exact he
    obtain ⟨x, hx, hxe⟩ := List.mem_map.mp (hInv.emitters_keys e he')
    refine ⟨x.2, ?_, hInv.listeners_ne x hx⟩
    have hex : (e, x.2) = x := by rw [← hxe]
    rw [hex]
    exact hx

theorem emitter_attach_invariant_witness :
    (onEvent "click" 1 (repaint (init contArg)).1).panel.emitters
      = ({ frameEx with handlers := ["click"] } : Frame).handlers :=
  (((emitter_attach_invariant (onEvent "click" 1 (repaint (init contArg)).1)
      (Reachable.step (Reachable.step (Reachable.init contArg)
          (Step.repaint (init contArg)))
        (Step.onEvent "click" 1 (repaint (init contArg)).1))).1
    { frameEx with handlers := ["click"] } rfl).2.1)

/-- C8: with two listeners registered under the same event name and the
dispatch function attached once for that name, dispatching one raw event
invokes both listeners with the raw event as argument, in registration
order. -/
theorem dispatch_invokes_in_order (s : State) (e : String) (c1 c2 : Callback)
    (v : RawEvent) (f : Frame) (hf : s.panel.frame = some f)
    (hh : f.handlers.count e = 1)
    (hl : List.lookup e s.panel.listeners = some [c1, c2]) :
    (dispatchEvent e v s).log = s.log ++ [(c1, v), (c2, v)] := by
  rw [dispatchEvent_some s e v f hf]
  show s.log ++ _ = s.log ++ _
  rw [hh, hl]
  simp

theorem dispatch_invokes_in_order_witness :
    (dispatchEvent "click" 7 (onEvent "click" 2 (onEvent "click" 1
        (repaint (init contArg)).1))).log
      = (onEvent "click" 2 (onEvent "click" 1
          (repaint (init contArg)).1)).log ++ [(1, 7), (2, 7)] :=
  dispatch_invokes_in_order _ "click" 1 2 7
    { frameEx with handlers := ["click"] } rfl rfl rfl

/-- C9: a listener registered via `on` while the surface element does not
yet exist, followed by a `repaint` with a container configured, results in a
dispatch function attached for that event name, and the listener receives
every subsequently dispatched event — the registration is deferred, not
lost. -/
theorem deferred_listener_attach (s : State) (e : String) (cb : Callback)
    (h : Reachable s) (hf : s.panel.frame = none)
    (hc : s.panel.options.container.isSome = true) :
    e ∈ (repaint (onEvent e cb s)).1.panel.emitters ∧
    ∀ v, (cb, v) ∈ (dispatchEvent e v (repaint (onEvent e cb s)).1).log := by
  have hreach1 : Reachable (onEvent e cb s) :=
    Reachable.step h (Step.onEvent e cb s)
  have hreach2 : Reachable (repaint (onEvent e cb s)).1 :=
    Reachable.step hreach1 (Step.repaint (onEvent e cb s))
  have hInv2 := reachable_Inv _ hreach2
  have hlook : List.lookup e (onEvent e cb s).panel.listeners
      = some ((List.lookup e s.panel.listeners).getD [] ++ [cb]) := by
    rw [onEvent_listeners]
    exact pushListener_lookup _ _ _
  have hc1 : ¬ (onEvent e cb s).panel.options.container = none := by
    rw [onEvent_options]
    intro hn
    rw [hn] at hc
    simp at hc
  have hcond : ¬(((onEvent e cb s).panel.frame.getD
      (newFrame (onEvent e cb s).panel.options.className)).parentAttached
        = false ∧ (onEvent e cb s).panel.options.container = none) :=
    fun hx => hc1 hx.2
  rw [repaint_eq_go _ hcond] at hInv2 ⊢
  obtain ⟨F, hfrF, hpaF, _, _, _, _, hoptF, hlsF, hwtF⟩ :=
    repaintGo_post (onEvent e cb s) ((onEvent e cb s).panel.frame.getD
      (newFrame (onEvent e cb s).panel.options.className))
  have hmem : e ∈ (repaintGo (onEvent e cb s)
      ((onEvent e cb s).panel.frame.getD
        (newFrame (onEvent e cb s).panel.options.className))).1.panel.emitters := by
    refine hInv2.synced_attached F hfrF hpaF
      (e, (List.lookup e s.panel.listeners).getD [] ++ [cb]) ?_
    rw [hlsF]
    exact lookup_mem _ _ _ hlook
  refine ⟨hmem, ?_⟩
  intro v
  rw [dispatchEvent_some _ e v F hfrF]
  show (cb, v) ∈ (repaintGo (onEvent e cb s)
    ((onEvent e cb s).panel.frame.getD
      (newFrame (onEvent e cb s).panel.options.className))).1.log ++ _
  apply List.mem_append_right
  have hparF := hInv2.parity F hfrF
  have heF : e ∈ F.handlers := by rw [← hparF]; exact hmem
  have hcnt : F.handlers.count e ≠ 0 := by
    intro h0
    rw [List.count_eq_zero] at h0
    exact h0 heF
  refine List.mem_flatten.mpr ⟨_, List.mem_replicate.mpr ⟨hcnt, rfl⟩, ?_⟩
  rw [hlsF, hlook]
  refine List.mem_map.mpr ⟨cb, ?_, rfl⟩
  simp

theorem deferred_listener_attach_witness :
    (5, 9) ∈ (dispatchEvent "click" 9
      (repaint (onEvent "click" 5 (init contArg))).1).log :=
  (deferred_listener_attach (init contArg) "click" 5
    (Reachable.init contArg) rfl rfl).2 9

/-- C10: once a dispatch function is attached for an event name, a listener
registered afterwards via `on` is still invoked by every subsequently
dispatched event for that name — the dispatch closure iterates the live
listener list (shared by reference, mutated in place by `push`), not a
snapshot taken at attachment time. -/
theorem dispatch_sees_live_listeners (s : State) (e : String) (cb : Callback)
    (l : List Callback) (f : Frame) (hf : s.panel.frame = some f)
    (hh : f.handlers.count e = 1) (he : e ∈ s.panel.emitters)
    (hl : List.lookup e s.panel.listeners = some l) (v : RawEvent) :
    (dispatchEvent e v (onEvent e cb s)).log
      = s.log ++ (l ++ [cb]).map (fun c => (c, v)) := by
  obtain ⟨hmem, f', hfr', hcnt, hpa⟩ := onEvent_frame_count s e cb f hf he
  rw [dispatchEvent_some (onEvent e cb s) e v f' hfr']
  show (onEvent e cb s).log ++ _ = s.log ++ _
  rw [onEvent_log, hcnt, hh, onEvent_listeners, pushListener_lookup, hl]
  simp

theorem dispatch_sees_live_listeners_witness :
    (dispatchEvent "click" 7 (onEvent "click" 2 (onEvent "click" 1
        (repaint (init contArg)).1))).log
      = (onEvent "click" 1 (repaint (init contArg)).1).log
          ++ ([1] ++ [2]).map (fun c => (c, 7)) :=
  dispatch_sees_live_listeners (onEvent "click" 1 (repaint (init contArg)).1)
    "click" 2 [1] { frameEx with handlers := ["click"] } rfl rfl
    (by decide) rfl 7

end RootPanel
